import Mathlib

/-!
# Verification of the mbtilesd tile-serving layer

Shallow embedding of `mbtilesd/app.py` and `mbtilesd/exceptions.py`:
a Flask application serving MBTiles tile archives over HTTP
(TileJSON descriptors, raw tiles, JSONP, CORS, conditional caching).

Modelling conventions:
* Python strings are Lean `String`s, bytes objects are `List Nat`.
* Python `int(...)` / `float(...)` on strings are `pyInt` / `pyFloat`
  (Option-valued; `none` models a raised `ValueError`).
* The metadata mapping of an archive is an association list whose values
  (`MetaVal`) can be strings, Python ints (after the zoom write-back), or
  `None`.
* Exceptions are an explicit error type `PyErr`; the `try/except` blocks
  of the handlers become the `finish` function mapping errors to HTTP
  responses exactly as the code's `except (InvalidFileError, IOError)`
  clauses and the 404 error handler do; errors outside the caught classes
  (`ValueError`, `TypeError`, `KeyError`, ...) surface as
  `Outcome.serverError` (an unhandled exception).
* The filesystem is a `World`: configuration (`PATHS`, `SERVERS`,
  `CACHE_MAX_AGE`) plus a mapping from file names to archive contents.
  File modification times are whole epoch seconds (`Nat`), matching the
  code's `int(os.path.getmtime(...))` truncation and whole-second HTTP
  dates.
-/

/-! ## Python value parsing -/

/-- Fold decimal digit characters into a natural number. -/
def natOfDigits (cs : List Char) : Nat :=
  cs.foldl (fun acc c => acc * 10 + (c.toNat - '0'.toNat)) 0

/-- Split an optional leading sign off a character list, returning the sign
as an integer factor (`+1` or `-1`) and the remainder. -/
def parseSign : List Char → Int × List Char
  | '+' :: t => (1, t)
  | '-' :: t => (-1, t)
  | t => (1, t)

/-- The ASCII whitespace characters Python's numeric conversions strip. -/
def isPySpace (c : Char) : Bool :=
  c = ' ' || c = '\t' || c = '\n' || c = '\r' || c = '\x0b' || c = '\x0c'

/-- Strip whitespace from both ends of a character list. -/
def stripPy (cs : List Char) : List Char :=
  ((cs.dropWhile isPySpace).reverse.dropWhile isPySpace).reverse

/-- Python 2 `int(s)` for a decimal string: strips surrounding whitespace,
allows one optional sign, then requires one or more ASCII digits.
`none` models a raised `ValueError`. -/
def pyInt (s : String) : Option Int :=
  let (sgn, r) := parseSign (stripPy s.data)
  if r ≠ [] ∧ r.all Char.isDigit then some (sgn * natOfDigits r) else none

/-- A Python float value. Finite values are modelled exactly as rationals
(binary rounding is irrelevant to every property proved here); the IEEE
specials are explicit constructors. -/
inductive PyFloat
  | finite (q : ℚ)
  | inf
  | ninf
  | nan
deriving DecidableEq

/-- The numeric part of Python `float(s)` after the sign:
`digits [. digits] [(e|E) [sign] digits]`, at least one mantissa digit. -/
def pyFloatNum (cs : List Char) : Option ℚ :=
  let (ip, r1) := cs.span Char.isDigit
  let (fp, r2) :=
    match r1 with
    | '.' :: t => t.span Char.isDigit
    | _ => ([], r1)
  if ip.isEmpty ∧ fp.isEmpty then none
  else
    let mant : ℚ := (natOfDigits ip : ℚ) + (natOfDigits fp : ℚ) / (10 ^ fp.length)
    match r2 with
    | [] => some mant
    | e :: t =>
      if e = 'e' ∨ e = 'E' then
        let (esgn, t2) := parseSign t
        let (ed, t3) := t2.span Char.isDigit
        if ed.isEmpty ∨ ¬ t3.isEmpty then none
        else some (mant * (10 : ℚ) ^ (esgn * (natOfDigits ed : Int)))
      else none

/-- Python 2 `float(s)`: strips whitespace, optional sign, then either a
decimal literal (with optional fraction and exponent) or one of the
case-insensitive special tokens `inf`/`infinity`/`nan`.
`none` models a raised `ValueError`. -/
def pyFloat (s : String) : Option PyFloat :=
  let (sgn, r) := parseSign (stripPy s.data)
  let low := String.mk (r.map Char.toLower)
  if low = "inf" ∨ low = "infinity" then
    some (if sgn = 1 then .inf else .ninf)
  else if low = "nan" then some .nan
  else
    match pyFloatNum r with
    | some q => some (.finite (sgn * q))
    | none => none

/-- The worker of `s.split(',')`: accumulate the current field (reversed)
and cut at every comma. -/
def splitCommaAux : List Char → List Char → List String
  | [], acc => [String.mk acc.reverse]
  | c :: t, acc =>
    if c = ',' then String.mk acc.reverse :: splitCommaAux t []
    else splitCommaAux t (c :: acc)

/-- Python `s.split(',')`: the comma-separated fields of `s` (one empty
field for the empty string, empty fields kept). -/
def pySplitComma (s : String) : List String :=
  splitCommaAux s.data []

/-- Python float addition (used for the TileJSON `center`). -/
def pfAdd : PyFloat → PyFloat → PyFloat
  | .nan, _ => .nan
  | _, .nan => .nan
  | .inf, .ninf => .nan
  | .ninf, .inf => .nan
  | .inf, _ => .inf
  | _, .inf => .inf
  | .ninf, _ => .ninf
  | _, .ninf => .ninf
  | .finite a, .finite b => .finite (a + b)

/-- Python float halving (`/ 2` under `from __future__ import division`). -/
def pfDiv2 : PyFloat → PyFloat
  | .finite q => .finite (q / 2)
  | .inf => .inf
  | .ninf => .ninf
  | .nan => .nan

/-! ## Archive data model -/

/-- A value stored in an archive's metadata mapping: a string (as read from
the file), a Python int (after the in-memory zoom write-back), or `None`. -/
inductive MetaVal
  | mstr (s : String)
  | mint (n : Int)
  | mnone
deriving DecidableEq

/-- `int(v)` on a metadata value: parses strings, keeps ints, and raises
(`none`: a `TypeError`) on `None`. -/
def pyIntOfMeta : MetaVal → Option Int
  | .mstr s => pyInt s
  | .mint n => some n
  | .mnone => none

/-- `metadata.get(k, None)`. -/
def mget (m : List (String × MetaVal)) (k : String) : MetaVal :=
  (m.lookup k).getD .mnone

/-- `metadata[k] = v`: replace in place, or append if the key is new. -/
def mset (m : List (String × MetaVal)) (k : String) (v : MetaVal) :
    List (String × MetaVal) :=
  match m with
  | [] => [(k, v)]
  | (k', v') :: t => if k' = k then (k, v) :: t else (k', v') :: mset t k v

/-- Python truthiness of a metadata value (`if metadata.get('bounds', None):`). -/
def pyTruthy : MetaVal → Bool
  | .mnone => false
  | .mstr s => s ≠ ""
  | .mint n => n ≠ 0

/-- One stored tile row of the `tiles` table: coordinates (TMS row order,
as stored in the archive) and the raw `tile_data` bytes. -/
structure Tile where
  z : Int
  x : Int
  y : Int
  data : List Nat
deriving DecidableEq

/-- The contents of one `.mbtiles` file as seen through the adapter:
metadata mapping, tile table, file modification time (whole epoch
seconds), file size, and whether `MBTiles(filename)` opens it without
raising `InvalidFileError`. -/
structure MBTilesData where
  metadata : List (String × MetaVal)
  tiles : List Tile
  mtime : Nat
  filesize : Nat
  valid : Bool
deriving DecidableEq

/-- `MBTiles.get(x, y, z)`: the `tile_data` stored at the coordinate, if
any (coordinates are a primary key, so the first match is the row). -/
def tileGet (a : MBTilesData) (x y z : Int) : Option (List Nat) :=
  (a.tiles.find? (fun t => t.x == x && t.y == y && t.z == z)).map (·.data)

/-- `SELECT MIN(zoom_level) FROM tiles` (SQL `MIN` is `NULL` on an empty
table). -/
def sqlMin : List Int → Option Int
  | [] => none
  | z :: t => some (t.foldl min z)

/-- `SELECT MAX(zoom_level) FROM tiles`. -/
def sqlMax : List Int → Option Int
  | [] => none
  | z :: t => some (t.foldl max z)

/-! ## Configuration and filesystem -/

/-- The application's world: the loaded configuration (`PATHS`, `SERVERS`,
`CACHE_MAX_AGE`) and the filesystem, as a mapping from full file names to
archive contents (a name present in `files` is a file that
`os.path.exists` finds). -/
structure World where
  paths : List String
  servers : List String
  cacheMaxAge : Nat
  files : List (String × MBTilesData)

/-- The `for path in app.config['PATHS']` loop of `get_mbtiles`: the first
root whose joined file name exists wins. -/
def locateGo (files : List (String × MBTilesData)) (fname : String) :
    List String → Option MBTilesData
  | [] => none
  | p :: ps =>
    match files.lookup (p ++ "/" ++ fname) with
    | some d => some d
    | none => locateGo files fname ps

/-- Locate `name + '.mbtiles'` in the search roots, earliest root first. -/
def locateFile (w : World) (name : String) : Option MBTilesData :=
  locateGo w.files (name ++ ".mbtiles") w.paths

/-! ## Exceptions, responses, outcomes -/

/-- The exceptions the handlers can raise or propagate.
`invalidFile`/`ioError` are the classes caught by the handlers' `except`
clauses; `tileNotFound`/`tilesetNotFound` are the raised werkzeug 404s;
`abort400` is `abort(400)`; the rest are uncaught Python errors. -/
inductive PyErr
  | invalidFile
  | ioError
  | tileNotFound
  | tilesetNotFound
  | abort400
  | valueError
  | keyError
  | attributeError
deriving DecidableEq

/-- `get_mbtiles(name)`: search the roots; a hit opens the archive
(raising `InvalidFileError` on a corrupt/unrecognized file), a miss
raises `IOError(ENOENT)`. -/
def get_mbtiles (w : World) (name : String) : Except PyErr MBTilesData :=
  match locateFile w name with
  | some d => if d.valid then .ok d else .error .invalidFile
  | none => .error .ioError

/-- An HTTP response body: raw bytes (tile data) or text. -/
inductive Body
  | bytes (b : List Nat)
  | text (s : String)
deriving DecidableEq

/-- An HTTP response as produced by a handler: status, body, and the
headers the handler sets explicitly. -/
structure Response where
  status : Nat
  body : Body
  headers : List (String × String)
deriving DecidableEq

/-- `App.make_response`: every response leaving the application gains
`Access-Control-Allow-Origin: *`. -/
def make_response (r : Response) : Response :=
  { r with headers := r.headers ++ [("Access-Control-Allow-Origin", "*")] }

/-- `NotFound.get_response`: a plain-text 404 whose body is the
exception's description (`exceptions.py`). -/
def notFoundResponse (description : String) : Response :=
  ⟨404, .text description, [("Content-Type", "text/plain")]⟩

/-- The framework's default response for `abort(400)` (its HTML body text
is abstracted; no property depends on it). -/
def badRequestResponse : Response :=
  ⟨400, .text "Bad Request", [("Content-Type", "text/html")]⟩

/-- What the request ultimately produces: an HTTP response, or an
unhandled exception escaping the WSGI application (server error). -/
inductive Outcome
  | resp (r : Response)
  | serverError (e : PyErr)
deriving DecidableEq

/-- The handlers' exception boundary: `except (InvalidFileError, IOError):
raise TilesetNotFound()`, the 404 error handler rendering the werkzeug
not-found exceptions, the framework's 400 response, and `make_response`
on every produced response. Uncaught errors escape. -/
def finish : Except PyErr Response → Outcome
  | .ok r => .resp (make_response r)
  | .error .invalidFile => .resp (make_response (notFoundResponse "Tileset does not exist"))
  | .error .ioError => .resp (make_response (notFoundResponse "Tileset does not exist"))
  | .error .tilesetNotFound => .resp (make_response (notFoundResponse "Tileset does not exist"))
  | .error .tileNotFound => .resp (make_response (notFoundResponse "Tile does not exist"))
  | .error .abort400 => .resp (make_response badRequestResponse)
  | .error e => .serverError e

/-! ## The tile endpoint (`tile`, `tile_png`, `jpgtile`) -/

/-- `Metadata.latest().FORMATS.PNG` — the adapter's PNG format identifier
(an external constant; every property below depends only on whether the
archive's declared format equals the endpoint's expected format). -/
def FORMATS_PNG : String := "png"

/-- `Metadata.latest().FORMATS.JPG`. -/
def FORMATS_JPG : String := "jpg"

/-- `email.utils.formatdate(mtime, localtime=False, usegmt=True)`: the
RFC-1123 rendering of the timestamp (the date arithmetic is abstracted;
the rendering is injective in the timestamp and nothing else). -/
def formatdate (t : Nat) : String := "GMT:" ++ toString t

/-- A tile request: path segments (as raw strings, the way Flask's default
converter passes them) and the parsed conditional headers, as whole epoch
seconds (HTTP dates carry no sub-second precision). -/
structure TileReq where
  name : String
  z : String
  x : String
  y : String
  ifModifiedSince : Option Nat
  ifUnmodifiedSince : Option Nat

/-- The body of `tile(name, x, y, z, format, content_type)` in `app.py`,
paired with the number of `mbtiles.get` calls performed (0 or 1).

The row flip `2 ** z - 1 - y` is modelled as `2 ^ z.toNat - 1 - y`; for
`z ≥ 0` (Python ints) this is exact, and no property below evaluates it
at a negative `z`. -/
def tileTry (w : World) (r : TileReq) (format : String) (content_type : String) :
    Except PyErr Response × Nat :=
  match get_mbtiles w r.name with
  | .error e => (.error e, 0)
  | .ok a =>
    match a.metadata.lookup "format" with
    | none => (.error .keyError, 0)
    | some fv =>
      if fv ≠ MetaVal.mstr format then (.error .tileNotFound, 0)
      else
        let mtime := a.mtime
        if (match r.ifModifiedSince with
            | some t => decide (mtime ≤ t)
            | none => false)
           || (match r.ifUnmodifiedSince with
            | some t => decide (mtime > t)
            | none => false)
        then (.ok ⟨304, .bytes [], []⟩, 0)
        else
          match pyInt r.x, pyInt r.y, pyInt r.z with
          | some x, some y, some z =>
            match tileGet a x (2 ^ z.toNat - 1 - y) z with
            | none => (.error .tileNotFound, 1)
            | some content =>
              (.ok ⟨200, .bytes content,
                [("Content-Type", content_type),
                 ("Cache-Control", "max-age=" ++ toString w.cacheMaxAge),
                 ("Last-Modified", formatdate mtime)]⟩, 1)
          | _, _, _ => (.error .valueError, 0)

/-- The tile endpoint end to end: handler body, exception boundary,
`make_response`; paired with the `mbtiles.get` call count. -/
def runTile (w : World) (r : TileReq) (format : String) (content_type : String) :
    Outcome × Nat :=
  let (e, g) := tileTry w r format content_type
  (finish e, g)

/-- `GET /v3/<name>/<z>/<x>/<y>.png`. -/
def tile_png (w : World) (r : TileReq) : Outcome × Nat :=
  runTile w r FORMATS_PNG "image/png"

/-- `GET /v3/<name>/<z>/<x>/<y>.jpg`. -/
def jpgtile (w : World) (r : TileReq) : Outcome × Nat :=
  runTile w r FORMATS_JPG "image/jpeg"

/-! ## The TileJSON endpoint (`tilejson`) -/

/-- A TileJSON request: URL scheme, `Host`, and the optional `callback`
query argument. -/
structure TJReq where
  scheme : String
  host : String
  callback : Option String

/-- `get_servers()`: the configured static list, or the request host. -/
def get_servers (w : World) (host : String) : List String :=
  if w.servers ≠ [] then w.servers else [host]

/-- A JSON value as assembled by the handler. -/
inductive JVal
  | null
  | bool (b : Bool)
  | int (n : Int)
  | float (f : PyFloat)
  | str (s : String)
  | arr (xs : List JVal)

/-- A metadata value as it lands in the JSON document. -/
def jOfMeta : MetaVal → JVal
  | .mstr s => .str s
  | .mint n => .int n
  | .mnone => .null

/-- A metadata value formatted into the tiles URL template
(`'...{ext}'.format(ext=metadata['format'])`). -/
def metaFormatStr : MetaVal → String
  | .mstr s => s
  | .mint n => toString n
  | .mnone => "None"

/-- One tiles URL template:
`'{http}://{host}/v3/{name}/{z}/{x}/{y}.{ext}'` with the literal
placeholders kept verbatim. -/
def tileURL (scheme host name ext : String) : String :=
  scheme ++ "://" ++ host ++ "/v3/" ++ name ++ "/\x7bz\x7d/\x7bx\x7d/\x7by\x7d." ++ ext

/-- Lines 127–137 of `app.py`: resolve `minzoom`/`maxzoom`. If either
`x-minzoom` or `x-maxzoom` is `None`, run the single aggregate query,
write both results back into the in-memory metadata, then `int(...)`
both values (raising on `None`, i.e. an empty tile table, or an
unparseable string). Returns the zoom pair (on success), the archive
with its possibly-updated metadata, and the number of aggregate queries
issued. -/
def resolveZooms (a : MBTilesData) :
    Except PyErr (Int × Int) × MBTilesData × Nat :=
  let maxz := mget a.metadata "x-maxzoom"
  let minz := mget a.metadata "x-minzoom"
  let (minv, maxv, meta', q) :=
    if maxz = .mnone ∨ minz = .mnone then
      let mn := ((sqlMin (a.tiles.map (·.z))).map MetaVal.mint).getD .mnone
      let mx := ((sqlMax (a.tiles.map (·.z))).map MetaVal.mint).getD .mnone
      (mn, mx, mset (mset a.metadata "x-minzoom" mn) "x-maxzoom" mx, 1)
    else (minz, maxz, a.metadata, 0)
  match pyIntOfMeta minv, pyIntOfMeta maxv with
  | some mn, some mx => (.ok (mn, mx), { a with metadata := meta' }, q)
  | _, _ => (.error .valueError, { a with metadata := meta' }, q)

/-- Lines 140–145 of `app.py`: if the `bounds` metadata value is truthy,
split it on commas, convert every field with `float(...)` (raising on a
non-float field), and append `bounds` and `center` to the document;
otherwise leave the document as is. A truthy non-string value raises
(`.split` is missing: `AttributeError`); fewer than four fields raise on
the indexing (modelled as the same uncaught kind). -/
def boundsAugment (result1 : List (String × JVal)) (mn mx : Int)
    (bv : MetaVal) : Except PyErr (List (String × JVal)) :=
  if pyTruthy bv then
    match bv with
    | .mstr s =>
      match (pySplitComma s).mapM pyFloat with
      | none => .error .valueError
      | some bs =>
        match bs.get? 0, bs.get? 1, bs.get? 2, bs.get? 3 with
        | some b0, some b1, some b2, some b3 =>
          .ok (result1 ++
            [("bounds", .arr (bs.map .float)),
             ("center", .arr
               [.float (pfDiv2 (pfAdd b2 b0)),
                .float (pfDiv2 (pfAdd b3 b1)),
                .float (.finite (((mx : ℚ) + (mn : ℚ)) / 2))])])
        | _, _, _, _ => .error .valueError
    | _ => .error .attributeError
  else .ok result1

/-- Lines 104–138 of `app.py`: the `result` dictionary before the bounds
handling, in insertion order — the `dict(...)` literal followed by the
`minzoom`/`maxzoom` update. -/
def resultDict (w : World) (name scheme host : String) (a : MBTilesData)
    (dsc nm fmtv ty ver : MetaVal) (mn mx : Int) : List (String × JVal) :=
  [("description", jOfMeta dsc),
   ("filesize", .int a.filesize),
   ("id", .str name),
   ("legend", .null),
   ("name", jOfMeta nm),
   ("private", .bool true),
   ("scheme", .str "xyz"),
   ("tilejson", .str "2.0.0"),
   ("tiles", .arr ((get_servers w host).map
      (fun h => .str (tileURL scheme h name (metaFormatStr fmtv))))),
   ("type", jOfMeta ty),
   ("version", jOfMeta ver),
   ("webpage", .null),
   ("minzoom", .int mn),
   ("maxzoom", .int mx)]

/-- Lines 104–145 of `app.py`: build the (unsorted) `result` dictionary,
as the insertion-ordered key/value list. Takes the request's scheme and
host (the only request data the document depends on). Returns the list
(or the raised error), the archive with its possibly-updated metadata,
and the aggregate-query count. -/
def buildResult (w : World) (name scheme host : String) (a : MBTilesData) :
    Except PyErr (List (String × JVal)) × MBTilesData × Nat :=
  match a.metadata.lookup "description", a.metadata.lookup "name",
        a.metadata.lookup "format", a.metadata.lookup "type",
        a.metadata.lookup "version" with
  | some dsc, some nm, some fmtv, some ty, some ver =>
    match resolveZooms a with
    | (.error e, a1, q) => (.error e, a1, q)
    | (.ok (mn, mx), a1, q) =>
      match boundsAugment (resultDict w name scheme host a dsc nm fmtv ty ver mn mx)
          mn mx (mget a1.metadata "bounds") with
      | .ok res => (.ok res, a1, q)
      | .error e => (.error e, a1, q)
  | _, _, _, _, _ => (.error .keyError, a, 0)

/-- Computable lexicographic comparison on character lists (the order
`sorted` uses on the distinct keys; proved below to agree with the
`String` linear order). -/
def lexLeChars : List Char → List Char → Bool
  | [], _ => true
  | _ :: _, [] => false
  | a :: as, b :: bs =>
    if a < b then true else if b < a then false else lexLeChars as bs

/-- Key order on document entries. -/
def pairLe (p q : String × JVal) : Prop :=
  lexLeChars p.1.data q.1.data = true

instance : DecidableRel pairLe := fun p q =>
  inferInstanceAs (Decidable (lexLeChars p.1.data q.1.data = true))

/-- `sorted(result.iteritems())`: keys are pairwise distinct, so sorting
the pairs is sorting by key. -/
def sortPairs (l : List (String × JVal)) : List (String × JVal) :=
  l.insertionSort pairLe

/-- Minimal JSON string rendering (no escaping; every string serialized
by the handler here is escape-free). -/
def renderStr (s : String) : String := "\"" ++ s ++ "\""

/-- Rendering of a float by `json.dumps` (decimal formatting of finite
values is abstracted via the rational's `toString`; the specials are the
tokens `json.dumps` actually emits). -/
def renderFloat : PyFloat → String
  | .finite q => toString q
  | .inf => "Infinity"
  | .ninf => "-Infinity"
  | .nan => "NaN"

mutual

/-- `json.dumps` of a value, with its default separators. -/
def renderJVal : JVal → String
  | .null => "null"
  | .bool true => "true"
  | .bool false => "false"
  | .int n => toString n
  | .float f => renderFloat f
  | .str s => renderStr s
  | .arr xs => "[" ++ renderJList xs ++ "]"

/-- Comma-joined rendering of array elements. -/
def renderJList : List JVal → String
  | [] => ""
  | [x] => renderJVal x
  | x :: xs => renderJVal x ++ ", " ++ renderJList xs

end

/-- Comma-joined rendering of the document's key/value pairs. -/
def renderJPairs : List (String × JVal) → String
  | [] => ""
  | [(k, v)] => renderStr k ++ ": " ++ renderJVal v
  | (k, v) :: t => renderStr k ++ ": " ++ renderJVal v ++ ", " ++ renderJPairs t

/-- `json.dumps(OrderedDict(...))` on the sorted document. -/
def renderJson (doc : List (String × JVal)) : String :=
  "\x7b" ++ renderJPairs doc ++ "\x7d"

/-- `re.match('[A-Za-z_]\w*$', s)` as a Boolean: an ASCII letter or
underscore, then word characters; the unanchored-`$` quirk of Python
regexes also accepts one trailing newline. -/
def jsonpTail : List Char → Bool
  | [] => true
  | ['\n'] => true
  | c :: t => (c.isAlphanum || c = '_') && jsonpTail t

/-- Whether a `callback` value passes the handler's identifier check. -/
def jsonpMatch (s : String) : Bool :=
  match s.data with
  | [] => false
  | c :: t => (c.isAlpha || c = '_') && jsonpTail t

/-- The full bookkeeping of one `tilejson` invocation. -/
structure TJRun where
  result : Except PyErr Response
  archive : Option MBTilesData
  queries : Nat
  opens : Nat

/-- Lines 147–163 of `app.py`: with the serialized document `results` in
hand, serve it as plain JSON, or — when a `callback` query argument is
present — validate it against the identifier pattern, wrap the body as
`callback(results)` with the JavaScript content type, or `abort(400)`. -/
def jsonpWrap (results : String) : Option String → Except PyErr Response
  | none =>
    .ok ⟨200, .text results,
      [("Content-Type", "application/json; charset=utf-8")]⟩
  | some cb =>
    if jsonpMatch cb then
      .ok ⟨200, .text (cb ++ "(" ++ results ++ ")"),
        [("Content-Type", "application/javascript; charset=utf-8")]⟩
    else .error .abort400

/-- `tilejson(name)` in `app.py`: the handler body inside its `try`,
together with the post-run archive state, the aggregate-query count, and
how many times `MBTiles(filename)` was constructed (the archive is
opened whenever a root contains the file — before the callback check,
which happens only after the whole document is built). -/
def tilejsonTry (w : World) (name : String) (r : TJReq) : TJRun :=
  match locateFile w name with
  | none => ⟨.error .ioError, none, 0, 0⟩
  | some a0 =>
    if a0.valid then
      match buildResult w name r.scheme r.host a0 with
      | (.error e, a1, q) => ⟨.error e, some a1, q, 1⟩
      | (.ok res, a1, q) =>
        ⟨jsonpWrap (renderJson (sortPairs res)) r.callback, some a1, q, 1⟩
    else ⟨.error .invalidFile, some a0, 0, 1⟩

/-- `GET /v3/<name>.json` end to end. -/
def tilejson (w : World) (name : String) (r : TJReq) : Outcome :=
  finish (tilejsonTry w name r).result

/-- The sorted JSON document of a successful TileJSON run (the
`OrderedDict` handed to `json.dumps`). -/
def tilejsonDoc (w : World) (name : String) (r : TJReq) :
    Option (List (String × JVal)) :=
  match locateFile w name with
  | none => none
  | some a0 =>
    if a0.valid then
      match buildResult w name r.scheme r.host a0 with
      | (.ok res, _, _) => some (sortPairs res)
      | _ => none
    else none

/-! ## Concrete fixtures (used by witnesses and counterexamples) -/

/-- A valid PNG archive with zoom metadata present and one stored tile at
zoom 3, column 1, TMS row 2. -/
def archSimple : MBTilesData :=
  { metadata := [("description", .mstr "demo tiles"), ("name", .mstr "demo"),
                 ("format", .mstr "png"), ("type", .mstr "baselayer"),
                 ("version", .mstr "1.0.0"),
                 ("x-minzoom", .mstr "1"), ("x-maxzoom", .mstr "5")],
    tiles := [⟨3, 1, 2, [137, 80, 78, 71]⟩],
    mtime := 1700000000, filesize := 4096, valid := true }

/-- A valid archive lacking `x-minzoom`/`x-maxzoom`, with tiles at zoom
levels 3, 1 and 5. -/
def archNoZoom : MBTilesData :=
  { metadata := [("description", .mstr "nz"), ("name", .mstr "nozoom"),
                 ("format", .mstr "png"), ("type", .mstr "overlay"),
                 ("version", .mstr "1")],
    tiles := [⟨3, 1, 2, [1, 2]⟩, ⟨1, 0, 0, [3]⟩, ⟨5, 4, 4, [5]⟩],
    mtime := 1700000100, filesize := 128, valid := true }

/-- A valid JPEG archive whose `bounds` metadata has a field that is not a
float. -/
def archBadBounds : MBTilesData :=
  { metadata := [("description", .mstr "bb"), ("name", .mstr "badbounds"),
                 ("format", .mstr "jpg"), ("type", .mstr "baselayer"),
                 ("version", .mstr "2"),
                 ("x-minzoom", .mstr "0"), ("x-maxzoom", .mstr "3"),
                 ("bounds", .mstr "-10,0,oops,40")],
    tiles := [], mtime := 5, filesize := 7, valid := true }

/-- A file that exists but fails to open (`InvalidFileError`). -/
def archCorrupt : MBTilesData :=
  { metadata := [], tiles := [], mtime := 0, filesize := 0, valid := false }

/-- A world with two search roots and the fixture archives. -/
def sampleWorld : World :=
  { paths := ["/tiles/a", "/tiles/b"], servers := [], cacheMaxAge := 86400,
    files := [("/tiles/a/demo.mbtiles", archSimple),
              ("/tiles/b/nozoom.mbtiles", archNoZoom),
              ("/tiles/a/badbounds.mbtiles", archBadBounds),
              ("/tiles/b/corrupt.mbtiles", archCorrupt)] }

/-- The in-memory state of `archNoZoom` after one TileJSON run: the
inferred zoom bounds (1 and 5) written back as integers. -/
def archNoZoomResolved : MBTilesData :=
  { archNoZoom with metadata := archNoZoom.metadata ++
      [("x-minzoom", .mint 1), ("x-maxzoom", .mint 5)] }

/-- A world whose `nozoom.mbtiles` already carries the written-back zoom
metadata (the same file state an adapter that persists the memoized
values would show on a later request). -/
def sampleWorld2 : World :=
  { paths := ["/tiles/a", "/tiles/b"], servers := [], cacheMaxAge := 86400,
    files := [("/tiles/b/nozoom.mbtiles", archNoZoomResolved)] }

/-! ## Helper lemmas -/

theorem make_response_cors (r : Response) :
    ("Access-Control-Allow-Origin", "*") ∈ (make_response r).headers := by
  simp [make_response]

theorem finish_cors (e : Except PyErr Response) (resp : Response)
    (h : finish e = .resp resp) :
    ("Access-Control-Allow-Origin", "*") ∈ resp.headers := by
  cases e with
  | ok r =>
    simp only [finish, Outcome.resp.injEq] at h
    subst h
    exact make_response_cors r
  | error pe =>
    cases pe <;>
      first
      | (simp only [finish, Outcome.resp.injEq] at h; subst h;
         exact make_response_cors _)
      | exact Outcome.noConfusion h

theorem listFoldlMin_le_init (l : List Int) (z : Int) : l.foldl min z ≤ z := by
  induction l generalizing z with
  | nil => exact le_refl z
  | cons a t ih => exact le_trans (ih (min z a)) (min_le_left z a)

theorem listFoldlMin_le_mem (l : List Int) (z : Int) :
    ∀ x ∈ l, l.foldl min z ≤ x := by
  induction l generalizing z with
  | nil => intro x hx; cases hx
  | cons a t ih =>
    intro x hx
    rcases List.mem_cons.mp hx with rfl | hx
    · exact le_trans (listFoldlMin_le_init t (min z x)) (min_le_right z x)
    · exact ih (min z a) x hx

theorem listFoldlMin_mem (l : List Int) (z : Int) :
    l.foldl min z = z ∨ l.foldl min z ∈ l := by
  induction l generalizing z with
  | nil => exact Or.inl rfl
  | cons a t ih =>
    rcases ih (min z a) with h | h
    · rcases min_choice z a with hm | hm
      · exact Or.inl (by rw [List.foldl_cons, h, hm])
      · exact Or.inr (by rw [List.foldl_cons, h, hm]; exact List.mem_cons_self a t)
    · exact Or.inr (List.mem_cons_of_mem a h)

theorem listFoldlMax_init_le (l : List Int) (z : Int) : z ≤ l.foldl max z := by
  induction l generalizing z with
  | nil => exact le_refl z
  | cons a t ih => exact le_trans (le_max_left z a) (ih (max z a))

theorem listFoldlMax_mem_le (l : List Int) (z : Int) :
    ∀ x ∈ l, x ≤ l.foldl max z := by
  induction l generalizing z with
  | nil => intro x hx; cases hx
  | cons a t ih =>
    intro x hx
    rcases List.mem_cons.mp hx with rfl | hx
    · exact le_trans (le_max_right z x) (listFoldlMax_init_le t (max z x))
    · exact ih (max z a) x hx

theorem listFoldlMax_mem (l : List Int) (z : Int) :
    l.foldl max z = z ∨ l.foldl max z ∈ l := by
  induction l generalizing z with
  | nil => exact Or.inl rfl
  | cons a t ih =>
    rcases ih (max z a) with h | h
    · rcases max_choice z a with hm | hm
      · exact Or.inl (by rw [List.foldl_cons, h, hm])
      · exact Or.inr (by rw [List.foldl_cons, h, hm]; exact List.mem_cons_self a t)
    · exact Or.inr (List.mem_cons_of_mem a h)

theorem mset_lookup_self (m : List (String × MetaVal)) (k : String) (v : MetaVal) :
    (mset m k v).lookup k = some v := by
  induction m with
  | nil => simp [mset, List.lookup]
  | cons hd t ih =>
    rcases hd with ⟨k', v'⟩
    by_cases h : k' = k
    · simp [mset, h, List.lookup]
    · have hne : (k == k') = false := beq_eq_false_iff_ne.mpr (Ne.symm h)
      simp [mset, h, List.lookup, hne, ih]

theorem mset_lookup_ne (m : List (String × MetaVal)) (k : String) (v : MetaVal)
    (k' : String) (h : k' ≠ k) :
    (mset m k v).lookup k' = m.lookup k' := by
  have hne : (k' == k) = false := beq_eq_false_iff_ne.mpr h
  induction m with
  | nil => simp [mset, List.lookup, hne]
  | cons hd t ih =>
    rcases hd with ⟨k0, v0⟩
    by_cases h0 : k0 = k
    · subst h0
      simp [mset, List.lookup, hne]
    · simp [mset, h0, List.lookup, ih]

theorem mapM_pyFloat_eq_none (l : List String)
    (hx : ∃ f ∈ l, pyFloat f = none) : l.mapM pyFloat = none := by
  rw [← List.mapM'_eq_mapM]
  induction l with
  | nil => rcases hx with ⟨f, hf, _⟩; cases hf
  | cons a t ih =>
    rcases hx with ⟨f, hf, hnone⟩
    rcases List.mem_cons.mp hf with rfl | hf
    · simp [List.mapM'_cons, hnone]
    · cases ha : pyFloat a <;> simp [ha, ih ⟨f, hf, hnone⟩]

theorem get_mbtiles_ok (w : World) (name : String) (a : MBTilesData)
    (hloc : locateFile w name = some a) (hval : a.valid = true) :
    get_mbtiles w name = .ok a := by
  unfold get_mbtiles
  rw [hloc]
  simp [hval]

/-! ## Claims about the tile endpoint -/

/-- **C1.** For every tile request whose tileset locates and opens with the
endpoint's expected format, carrying no conditional headers, whose three
path segments parse as integers with `z = zn ≥ 0`, and whose coordinate is
stored in the archive at column `x`, TMS row `2^z - 1 - y`, zoom `z`: the
response is status 200 and its body is exactly the stored bytes, after a
single archive lookup. -/
theorem tile_xyz_tms_roundtrip (w : World) (r : TileReq) (format ct : String)
    (a : MBTilesData) (x y z : Int) (zn : Nat) (content : List Nat)
    (hloc : locateFile w r.name = some a) (hval : a.valid = true)
    (hfmt : a.metadata.lookup "format" = some (.mstr format))
    (hims : r.ifModifiedSince = none) (hius : r.ifUnmodifiedSince = none)
    (hx : pyInt r.x = some x) (hy : pyInt r.y = some y) (hz : pyInt r.z = some z)
    (hzn : z = (zn : Int))
    (hstored : tileGet a x ((2 : Int) ^ zn - 1 - y) z = some content) :
    runTile w r format ct =
      (.resp (make_response ⟨200, .bytes content,
        [("Content-Type", ct),
         ("Cache-Control", "max-age=" ++ toString w.cacheMaxAge),
         ("Last-Modified", formatdate a.mtime)]⟩), 1) := by
  have htn : z.toNat = zn := by rw [hzn]; exact Int.toNat_natCast zn
  unfold runTile tileTry
  rw [get_mbtiles_ok w r.name a hloc hval]
  simp only [hfmt, hims, hius, hx, hy, hz, htn, hstored, ne_eq, not_true_eq_false,
    if_false, Bool.or_self, Bool.false_eq_true, ite_false]
  simp [finish]

/-- Witness for C1 on the fixture world: the stored tile at zoom 3,
column 1, TMS row 2 is served verbatim for the XYZ request `3/1/5`
(since `2^3 - 1 - 5 = 2`). -/
theorem tile_xyz_tms_roundtrip_witness :
    locateFile sampleWorld "demo" = some archSimple ∧
    tileGet archSimple 1 2 3 = some [137, 80, 78, 71] ∧
    tile_png sampleWorld ⟨"demo", "3", "1", "5", none, none⟩ =
      (.resp (make_response ⟨200, .bytes [137, 80, 78, 71],
        [("Content-Type", "image/png"),
         ("Cache-Control", "max-age=" ++ toString (86400 : Nat)),
         ("Last-Modified", formatdate 1700000000)]⟩), 1) :=
  ⟨rfl, rfl,
    tile_xyz_tms_roundtrip sampleWorld ⟨"demo", "3", "1", "5", none, none⟩
      "png" "image/png" archSimple 1 5 3 3 [137, 80, 78, 71]
      rfl rfl rfl rfl rfl rfl rfl rfl rfl (by decide)⟩

/-- **C3.** For every tile request against a locatable, valid archive of
the endpoint's expected format: if the request's `If-Modified-Since` is at
or after the archive's whole-second modification time, or its
`If-Unmodified-Since` is strictly before it, the response is 304 with an
empty body and the archive `get` is never called. -/
theorem tile_conditional_304 (w : World) (r : TileReq) (format ct : String)
    (a : MBTilesData)
    (hloc : locateFile w r.name = some a) (hval : a.valid = true)
    (hfmt : a.metadata.lookup "format" = some (.mstr format))
    (hcond : (∃ t, r.ifModifiedSince = some t ∧ a.mtime ≤ t) ∨
             (∃ t, r.ifUnmodifiedSince = some t ∧ t < a.mtime)) :
    runTile w r format ct = (.resp (make_response ⟨304, .bytes [], []⟩), 0) := by
  unfold runTile tileTry
  rw [get_mbtiles_ok w r.name a hloc hval]
  rcases hcond with ⟨t, ht, hle⟩ | ⟨t, ht, hlt⟩
  · simp [hfmt, ht, hle, finish]
  · cases him : r.ifModifiedSince <;> simp [hfmt, ht, him, hlt, finish]

/-- Witness for C3: `If-Modified-Since` equal to the archive's
modification time yields 304 with an empty body and no lookup. -/
theorem tile_conditional_304_witness :
    locateFile sampleWorld "demo" = some archSimple ∧
    archSimple.mtime ≤ 1700000000 ∧
    tile_png sampleWorld ⟨"demo", "3", "1", "5", some 1700000000, none⟩ =
      (.resp (make_response ⟨304, .bytes [], []⟩), 0) :=
  ⟨rfl, by decide,
    tile_conditional_304 sampleWorld ⟨"demo", "3", "1", "5", some 1700000000, none⟩
      "png" "image/png" archSimple rfl rfl rfl
      (Or.inl ⟨1700000000, rfl, by decide⟩)⟩

/-- **C6.** For every tile request whose located, valid archive declares a
format different from the endpoint's expected format, the response is 404
with plain-text body "Tile does not exist" — regardless of the coordinate
strings and of any conditional headers. -/
theorem tile_format_mismatch (w : World) (r : TileReq) (format ct : String)
    (a : MBTilesData) (fv : MetaVal)
    (hloc : locateFile w r.name = some a) (hval : a.valid = true)
    (hfmt : a.metadata.lookup "format" = some fv)
    (hne : fv ≠ .mstr format) :
    runTile w r format ct =
      (.resp (make_response (notFoundResponse "Tile does not exist")), 0) := by
  unfold runTile tileTry
  rw [get_mbtiles_ok w r.name a hloc hval]
  simp [hfmt, hne, finish]

/-- Witness for C6: the PNG-format fixture tileset requested through the
`.jpg` endpoint returns 404 "Tile does not exist". -/
theorem tile_format_mismatch_witness :
    locateFile sampleWorld "demo" = some archSimple ∧
    archSimple.metadata.lookup "format" = some (.mstr "png") ∧
    jpgtile sampleWorld ⟨"demo", "3", "1", "5", none, none⟩ =
      (.resp (make_response (notFoundResponse "Tile does not exist")), 0) :=
  ⟨rfl, rfl,
    tile_format_mismatch sampleWorld ⟨"demo", "3", "1", "5", none, none⟩
      "jpg" "image/jpeg" archSimple (.mstr "png") rfl rfl rfl (by decide)⟩

/-- **C9.** For every tile request whose tileset locates and opens with
the endpoint's expected format and which carries no conditional headers,
if any of the `x`, `y`, `z` path segments fails Python's integer
conversion, the handler dies with the uncaught `ValueError` (only
`InvalidFileError` and `IOError` are caught), i.e. an unhandled server
error — not any 404 response. -/
theorem tile_bad_coordinate_server_error (w : World) (r : TileReq)
    (format ct : String) (a : MBTilesData)
    (hloc : locateFile w r.name = some a) (hval : a.valid = true)
    (hfmt : a.metadata.lookup "format" = some (.mstr format))
    (hims : r.ifModifiedSince = none) (hius : r.ifUnmodifiedSince = none)
    (hbad : pyInt r.x = none ∨ pyInt r.y = none ∨ pyInt r.z = none) :
    runTile w r format ct = (.serverError .valueError, 0) := by
  unfold runTile tileTry
  rw [get_mbtiles_ok w r.name a hloc hval]
  rcases hbad with hb | hb | hb
  · cases hy : pyInt r.y <;> cases hz : pyInt r.z <;>
      simp [hfmt, hims, hius, hb, hy, hz, finish]
  · cases hx : pyInt r.x <;> cases hz : pyInt r.z <;>
      simp [hfmt, hims, hius, hb, hx, hz, finish]
  · cases hx : pyInt r.x <;> cases hy : pyInt r.y <;>
      simp [hfmt, hims, hius, hb, hx, hy, finish]

/-- Witness for C9: a non-decimal `y` segment on the PNG fixture produces
an unhandled server error, not a 404. -/
theorem tile_bad_coordinate_server_error_witness :
    pyInt "5a" = none ∧
    tile_png sampleWorld ⟨"demo", "3", "1", "5a", none, none⟩ =
      (.serverError .valueError, 0) :=
  ⟨by decide,
    tile_bad_coordinate_server_error sampleWorld ⟨"demo", "3", "1", "5a", none, none⟩
      "png" "image/png" archSimple rfl rfl rfl rfl rfl (Or.inr (Or.inl (by decide)))⟩

/-! ## Claims about the locator and the error taxonomy -/

theorem locateGo_first (files : List (String × MBTilesData)) (fname : String)
    (ps1 : List String) (p : String) (ps2 : List String) (d : MBTilesData)
    (hmiss : ∀ q ∈ ps1, files.lookup (q ++ "/" ++ fname) = none)
    (hhit : files.lookup (p ++ "/" ++ fname) = some d) :
    locateGo files fname (ps1 ++ p :: ps2) = some d := by
  induction ps1 with
  | nil => simp [locateGo, hhit]
  | cons q t ih =>
    have hq : files.lookup (q ++ "/" ++ fname) = none :=
      hmiss q (List.mem_cons_self q t)
    simp only [List.cons_append, locateGo, hq]
    exact ih (fun q' hq' => hmiss q' (List.mem_cons_of_mem q hq'))

/-- **C4.** The locator opens `<name>.mbtiles` from the earliest search
root containing it (earlier roots shadow later ones); and whenever no
root contains the file, or the located archive fails to open, both the
TileJSON endpoint and the tile endpoints answer 404 with plain-text body
"Tileset does not exist" — absence and corruption are indistinguishable
to the client. -/
theorem tileset_locator_earliest_and_404 (w : World) (name : String)
    (rj : TJReq) (rt : TileReq) (format ct : String)
    (hname : rt.name = name) :
    (∀ ps1 p ps2 d, w.paths = ps1 ++ p :: ps2 →
        (∀ q ∈ ps1, w.files.lookup (q ++ "/" ++ (name ++ ".mbtiles")) = none) →
        w.files.lookup (p ++ "/" ++ (name ++ ".mbtiles")) = some d →
        locateFile w name = some d)
    ∧ ((locateFile w name = none ∨
          ∃ d, locateFile w name = some d ∧ d.valid = false) →
        tilejson w name rj =
          .resp (make_response (notFoundResponse "Tileset does not exist")) ∧
        (runTile w rt format ct).1 =
          .resp (make_response (notFoundResponse "Tileset does not exist"))) := by
  constructor
  · intro ps1 p ps2 d hpaths hmiss hhit
    unfold locateFile
    rw [hpaths]
    exact locateGo_first w.files (name ++ ".mbtiles") ps1 p ps2 d hmiss hhit
  · intro hfail
    rcases hfail with hnone | ⟨d, hsome, hinv⟩
    · constructor
      · unfold tilejson tilejsonTry
        rw [hnone]
        simp [finish]
      · unfold runTile tileTry get_mbtiles
        rw [hname, hnone]
        simp [finish]
    · constructor
      · unfold tilejson tilejsonTry
        rw [hsome]
        simp [hinv, finish]
      · unfold runTile tileTry get_mbtiles
        rw [hname, hsome]
        simp [hinv, finish]

/-- Witness for C4 on the fixture world: "demo" resolves under the first
root; the absent "ghost" and the corrupt "corrupt" tilesets both yield
404 "Tileset does not exist" on both endpoints. -/
theorem tileset_locator_earliest_and_404_witness :
    locateFile sampleWorld "demo" = some archSimple ∧
    (tilejson sampleWorld "ghost" ⟨"http", "h", none⟩ =
       .resp (make_response (notFoundResponse "Tileset does not exist")) ∧
     (runTile sampleWorld ⟨"ghost", "0", "0", "0", none, none⟩ "png" "image/png").1 =
       .resp (make_response (notFoundResponse "Tileset does not exist"))) ∧
    (tilejson sampleWorld "corrupt" ⟨"http", "h", none⟩ =
       .resp (make_response (notFoundResponse "Tileset does not exist")) ∧
     (runTile sampleWorld ⟨"corrupt", "0", "0", "0", none, none⟩ "png" "image/png").1 =
       .resp (make_response (notFoundResponse "Tileset does not exist"))) :=
  ⟨(tileset_locator_earliest_and_404 sampleWorld "demo" ⟨"http", "h", none⟩
      ⟨"demo", "0", "0", "0", none, none⟩ "png" "image/png" rfl).1
      [] "/tiles/a" ["/tiles/b"] archSimple rfl (by intro q hq; cases hq) rfl,
   (tileset_locator_earliest_and_404 sampleWorld "ghost" ⟨"http", "h", none⟩
      ⟨"ghost", "0", "0", "0", none, none⟩ "png" "image/png" rfl).2
      (Or.inl rfl),
   (tileset_locator_earliest_and_404 sampleWorld "corrupt" ⟨"http", "h", none⟩
      ⟨"corrupt", "0", "0", "0", none, none⟩ "png" "image/png" rfl).2
      (Or.inr ⟨archCorrupt, rfl, rfl⟩)⟩

/-- **C7.** Every HTTP response this layer produces — success (200, 304)
or failure (400, 404), on the TileJSON endpoint or on a tile endpoint —
carries the header `Access-Control-Allow-Origin: *`. -/
theorem cors_on_every_response (w : World) (name : String) (rj : TJReq)
    (rt : TileReq) (format ct : String) :
    (∀ resp, tilejson w name rj = .resp resp →
       ("Access-Control-Allow-Origin", "*") ∈ resp.headers)
    ∧ (∀ resp g, runTile w rt format ct = (.resp resp, g) →
       ("Access-Control-Allow-Origin", "*") ∈ resp.headers) := by
  constructor
  · intro resp h
    exact finish_cors _ resp h
  · intro resp g h
    have h1 : finish (tileTry w rt format ct).1 = .resp resp := by
      have := congrArg Prod.fst h
      simpa [runTile] using this
    exact finish_cors _ resp h1

/-- Witness for C7: a successful TileJSON response on the fixture world
carries the CORS header. -/
theorem cors_on_every_response_witness :
    ("Access-Control-Allow-Origin", "*") ∈
      (make_response ⟨304, .bytes [], []⟩).headers ∧
    tile_png sampleWorld ⟨"demo", "3", "1", "5", some 1700000000, none⟩ =
      (.resp (make_response ⟨304, .bytes [], []⟩), 0) :=
  ⟨(cors_on_every_response sampleWorld "demo" ⟨"http", "h", none⟩
      ⟨"demo", "3", "1", "5", some 1700000000, none⟩ "png" "image/png").2
      (make_response ⟨304, .bytes [], []⟩) 0 (by decide),
   by decide⟩

/-! ## Claim about zoom-range inference (`resolveZooms`) -/

theorem resolveZooms_query (a : MBTilesData) (t0 : Tile) (ts : List Tile)
    (htiles : a.tiles = t0 :: ts)
    (hcond : mget a.metadata "x-maxzoom" = .mnone ∨
             mget a.metadata "x-minzoom" = .mnone) :
    resolveZooms a =
      (.ok ((ts.map (fun t => t.z)).foldl min t0.z,
            (ts.map (fun t => t.z)).foldl max t0.z),
       MBTilesData.mk
         (mset (mset a.metadata "x-minzoom"
             (.mint ((ts.map (fun t => t.z)).foldl min t0.z)))
           "x-maxzoom" (.mint ((ts.map (fun t => t.z)).foldl max t0.z)))
         a.tiles a.mtime a.filesize a.valid,
       1) := by
  unfold resolveZooms
  rcases hcond with h | h <;>
    simp [h, htiles, sqlMin, sqlMax, pyIntOfMeta]

/-- **C5.** On an open archive whose metadata lacks `x-minzoom` or
`x-maxzoom` and whose tile table is non-empty: the zoom resolution issues
exactly one aggregate query, the values it returns are the true minimum
and maximum zoom levels present in storage, both are written back into
the in-memory metadata as integers, and resolving again on the resulting
handle issues no further query and returns the same values. -/
theorem zoom_inference_memoized (a : MBTilesData) (t0 : Tile) (ts : List Tile)
    (htiles : a.tiles = t0 :: ts)
    (hmiss : mget a.metadata "x-minzoom" = .mnone ∨
             mget a.metadata "x-maxzoom" = .mnone) :
    ∃ mn mx a',
      resolveZooms a = (.ok (mn, mx), a', 1) ∧
      ((∃ t ∈ a.tiles, t.z = mn) ∧ ∀ t ∈ a.tiles, mn ≤ t.z) ∧
      ((∃ t ∈ a.tiles, t.z = mx) ∧ ∀ t ∈ a.tiles, t.z ≤ mx) ∧
      mget a'.metadata "x-minzoom" = .mint mn ∧
      mget a'.metadata "x-maxzoom" = .mint mx ∧
      resolveZooms a' = (.ok (mn, mx), a', 0) := by
  have hres := resolveZooms_query a t0 ts htiles hmiss.symm
  have hlkmin : ∀ v1 v2,
      mget (mset (mset a.metadata "x-minzoom" v1) "x-maxzoom" v2) "x-minzoom" = v1 := by
    intro v1 v2
    simp [mget, mset_lookup_ne _ _ _ _ (by decide : "x-minzoom" ≠ "x-maxzoom"),
      mset_lookup_self]
  have hlkmax : ∀ v1 v2,
      mget (mset (mset a.metadata "x-minzoom" v1) "x-maxzoom" v2) "x-maxzoom" = v2 := by
    intro v1 v2
    simp [mget, mset_lookup_self]
  refine ⟨(ts.map (fun t => t.z)).foldl min t0.z,
          (ts.map (fun t => t.z)).foldl max t0.z, _, hres,
          ⟨?_, ?_⟩, ⟨?_, ?_⟩, hlkmin _ _, hlkmax _ _, ?_⟩
  · rcases listFoldlMin_mem (ts.map (fun t => t.z)) t0.z with h | h
    · exact ⟨t0, by rw [htiles]; exact List.mem_cons_self _ _, h.symm⟩
    · rcases List.mem_map.mp h with ⟨t, ht, hz⟩
      exact ⟨t, by rw [htiles]; exact List.mem_cons_of_mem _ ht, hz⟩
  · intro t ht
    rw [htiles] at ht
    rcases List.mem_cons.mp ht with rfl | ht
    · exact listFoldlMin_le_init _ _
    · exact listFoldlMin_le_mem _ _ _ (List.mem_map_of_mem _ ht)
  · rcases listFoldlMax_mem (ts.map (fun t => t.z)) t0.z with h | h
    · exact ⟨t0, by rw [htiles]; exact List.mem_cons_self _ _, h.symm⟩
    · rcases List.mem_map.mp h with ⟨t, ht, hz⟩
      exact ⟨t, by rw [htiles]; exact List.mem_cons_of_mem _ ht, hz⟩
  · intro t ht
    rw [htiles] at ht
    rcases List.mem_cons.mp ht with rfl | ht
    · exact listFoldlMax_init_le _ _
    · exact listFoldlMax_mem_le _ _ _ (List.mem_map_of_mem _ ht)
  · unfold resolveZooms
    simp [hlkmin, hlkmax, pyIntOfMeta]

/-- Witness for C5 on the fixture archive without zoom metadata (tiles at
zoom levels 3, 1 and 5). -/
theorem zoom_inference_memoized_witness :
    archNoZoom.tiles =
      (⟨3, 1, 2, [1, 2]⟩ : Tile) :: [⟨1, 0, 0, [3]⟩, ⟨5, 4, 4, [5]⟩] ∧
    mget archNoZoom.metadata "x-minzoom" = .mnone ∧
    (∃ mn mx a',
      resolveZooms archNoZoom = (.ok (mn, mx), a', 1) ∧
      ((∃ t ∈ archNoZoom.tiles, t.z = mn) ∧ ∀ t ∈ archNoZoom.tiles, mn ≤ t.z) ∧
      ((∃ t ∈ archNoZoom.tiles, t.z = mx) ∧ ∀ t ∈ archNoZoom.tiles, t.z ≤ mx) ∧
      mget a'.metadata "x-minzoom" = .mint mn ∧
      mget a'.metadata "x-maxzoom" = .mint mx ∧
      resolveZooms a' = (.ok (mn, mx), a', 0)) :=
  ⟨rfl, rfl,
    zoom_inference_memoized archNoZoom ⟨3, 1, 2, [1, 2]⟩
      [⟨1, 0, 0, [3]⟩, ⟨5, 4, 4, [5]⟩] rfl (Or.inl rfl)⟩

/-! ## Claim about malformed `bounds` metadata -/

/-- **C10.** For a locatable, valid archive whose required metadata keys
resolve and whose zoom resolution succeeds: if its `bounds` metadata is a
non-empty string with a comma-separated field that does not parse as a
float, the TileJSON request dies with the uncaught `ValueError` (an
unhandled server error) — it neither returns the document with
bounds/center omitted nor any 404. -/
theorem tilejson_bad_bounds_server_error (w : World) (name : String)
    (r : TJReq) (a : MBTilesData)
    (hloc : locateFile w name = some a) (hval : a.valid = true)
    (d1 d2 d3 d4 d5 : MetaVal)
    (h1 : a.metadata.lookup "description" = some d1)
    (h2 : a.metadata.lookup "name" = some d2)
    (h3 : a.metadata.lookup "format" = some d3)
    (h4 : a.metadata.lookup "type" = some d4)
    (h5 : a.metadata.lookup "version" = some d5)
    (mn mx : Int) (a1 : MBTilesData) (q : Nat)
    (hz : resolveZooms a = (.ok (mn, mx), a1, q))
    (bs : String) (hb : mget a1.metadata "bounds" = .mstr bs) (hbne : bs ≠ "")
    (hbad : ∃ f ∈ pySplitComma bs, pyFloat f = none) :
    tilejson w name r = .serverError .valueError := by
  have hmapM := mapM_pyFloat_eq_none _ hbad
  have hloop : List.mapM.loop pyFloat (pySplitComma bs) [] = none := hmapM
  unfold tilejson tilejsonTry
  rw [hloc]
  simp only [hval, ite_true]
  unfold buildResult
  rw [h1, h2, h3, h4, h5, hz]
  simp [boundsAugment, hb, hbne, pyTruthy, hmapM, hloop, finish]

/-- Witness for C10 on the fixture archive with `bounds`
`"-10,0,oops,40"`. -/
theorem tilejson_bad_bounds_server_error_witness :
    mget archBadBounds.metadata "bounds" = .mstr "-10,0,oops,40" ∧
    pyFloat "oops" = none ∧
    tilejson sampleWorld "badbounds" ⟨"http", "h", none⟩ =
      .serverError .valueError :=
  ⟨rfl, rfl,
    tilejson_bad_bounds_server_error sampleWorld "badbounds" ⟨"http", "h", none⟩
      archBadBounds rfl rfl _ _ _ _ _ rfl rfl rfl rfl rfl
      0 3 archBadBounds 0 rfl "-10,0,oops,40" rfl (by decide)
      ⟨"oops", by decide, rfl⟩⟩

/-! ## Claim about JSONP callback validation -/

theorem tilejsonTry_cases (w : World) (name sc host : String) :
    (∃ e ar qs op, ∀ c, tilejsonTry w name ⟨sc, host, c⟩ =
        ⟨.error e, ar, qs, op⟩) ∨
    (∃ S a1 q, ∀ c, tilejsonTry w name ⟨sc, host, c⟩ =
        ⟨jsonpWrap S c, some a1, q, 1⟩) := by
  cases hl : locateFile w name with
  | none =>
    refine Or.inl ⟨.ioError, none, 0, 0, fun c => ?_⟩
    unfold tilejsonTry
    rw [hl]
  | some a0 =>
    cases hv : a0.valid with
    | false =>
      refine Or.inl ⟨.invalidFile, some a0, 0, 1, fun c => ?_⟩
      unfold tilejsonTry
      rw [hl]
      simp [hv]
    | true =>
      rcases hbr : buildResult w name sc host a0 with ⟨res, a1, q⟩
      cases res with
      | error e =>
        refine Or.inl ⟨e, some a1, q, 1, fun c => ?_⟩
        unfold tilejsonTry
        rw [hl]
        simp [hv, hbr]
      | ok resl =>
        refine Or.inr ⟨renderJson (sortPairs resl), a1, q, fun c => ?_⟩
        unfold tilejsonTry
        rw [hl]
        simp [hv, hbr]

/-- Counterexample to **C2** as stated. The claim asserts that a
non-matching `callback` fails with 400 *before any archive is touched*.
On the fixture world: (i) for a missing tileset the very same request
yields 404, not 400 — the locator runs first; (ii) for an existing
tileset the 400 does come, but only after the archive has been opened
(`opens = 1`) and its metadata read — the validation sits at the end of
the handler, inside the `with` block. -/
theorem jsonp_validation_counterexample :
    jsonpMatch "42bad" = false ∧
    tilejson sampleWorld "ghost" ⟨"http", "h", some "42bad"⟩ =
      .resp (make_response (notFoundResponse "Tileset does not exist")) ∧
    tilejson sampleWorld "demo" ⟨"http", "h", some "42bad"⟩ =
      .resp (make_response badRequestResponse) ∧
    (tilejsonTry sampleWorld "demo" ⟨"http", "h", some "42bad"⟩).opens = 1 :=
  ⟨rfl, rfl, rfl, rfl⟩

/-- **C2 (amended).** For every TileJSON request that would succeed
without a callback (the tileset locates, opens, and the document builds):
a `callback` value failing the identifier check yields 400 — but only
after the archive has been opened and read (`opens = 1`); a passing
value yields 200 with the body wrapped as `callback(body)` and the
JavaScript content type. (A missing or corrupt tileset yields 404
regardless of the callback, per C4.) -/
theorem jsonp_validation_amended (w : World) (name sc host cb s : String)
    (a1 : MBTilesData) (q o : Nat)
    (hplain : tilejsonTry w name ⟨sc, host, none⟩ =
      ⟨.ok ⟨200, .text s, [("Content-Type", "application/json; charset=utf-8")]⟩,
       some a1, q, o⟩) :
    (jsonpMatch cb = false →
       tilejson w name ⟨sc, host, some cb⟩ =
         .resp (make_response badRequestResponse) ∧
       (tilejsonTry w name ⟨sc, host, some cb⟩).opens = 1) ∧
    (jsonpMatch cb = true →
       tilejsonTry w name ⟨sc, host, some cb⟩ =
         ⟨.ok ⟨200, .text (cb ++ "(" ++ s ++ ")"),
           [("Content-Type", "application/javascript; charset=utf-8")]⟩,
          some a1, q, 1⟩) := by
  rcases tilejsonTry_cases w name sc host with
    ⟨e, ar, qs, op, hall⟩ | ⟨S, a1', q', hall⟩
  · rw [hall none] at hplain
    simp [TJRun.mk.injEq] at hplain
  · have hnone := hall none
    rw [hnone] at hplain
    have h1 : S = s ∧ a1' = a1 ∧ q' = q ∧ 1 = o := by
      simpa [jsonpWrap, TJRun.mk.injEq, Response.mk.injEq] using hplain
    obtain ⟨rfl, rfl, rfl, rfl⟩ := h1
    constructor
    · intro hcb
      have h2 := hall (some cb)
      constructor
      · unfold tilejson
        rw [h2]
        simp [jsonpWrap, hcb, finish]
      · rw [h2]
    · intro hcb
      have h2 := hall (some cb)
      rw [h2]
      simp [jsonpWrap, hcb]

/-- Witness for the amended C2 on the fixture world. -/
theorem jsonp_validation_amended_witness :
    jsonpMatch "42bad" = false ∧
    tilejson sampleWorld "demo" ⟨"http", "h", some "42bad"⟩ =
      .resp (make_response badRequestResponse) ∧
    (tilejsonTry sampleWorld "demo" ⟨"http", "h", some "42bad"⟩).opens = 1 :=
  ⟨rfl,
    (jsonp_validation_amended sampleWorld "demo" "http" "h" "42bad" _ _ _ _ rfl).1 rfl⟩

/-! ## Claim about TileJSON determinism and key order -/

theorem lexLeChars_iff_not_lex :
    ∀ (as bs : List Char), lexLeChars as bs = true ↔ ¬ List.Lex (· < ·) bs as := by
  intro as
  induction as with
  | nil =>
    intro bs
    constructor
    · intro _ h
      cases h
    · intro _
      rfl
  | cons a as ih =>
    intro bs
    cases bs with
    | nil =>
      constructor
      · intro h
        exact Bool.noConfusion h
      · intro h
        exact absurd List.Lex.nil h
    | cons b bs =>
      rcases lt_trichotomy a b with hab | heq | hba
      · constructor
        · intro _ h
          cases h with
          | rel h' => exact absurd hab (asymm h')
          | cons h' => exact absurd hab (lt_irrefl a)
        · intro _
          simp [lexLeChars, hab]
      · subst heq
        have hstep : lexLeChars (a :: as) (a :: bs) = lexLeChars as bs := by
          simp [lexLeChars]
        rw [hstep, ih bs]
        constructor
        · intro h hcon
          cases hcon with
          | rel h' => exact lt_irrefl a h'
          | cons h' => exact h h'
        · intro h hlex
          exact h (List.Lex.cons hlex)
      · have hf : lexLeChars (a :: as) (b :: bs) = false := by
          simp [lexLeChars, hba, asymm hba]
        rw [hf]
        constructor
        · intro h
          exact Bool.noConfusion h
        · intro h
          exact absurd (List.Lex.rel hba) h

theorem pairLe_iff (p q : String × JVal) : pairLe p q ↔ p.1 ≤ q.1 := by
  unfold pairLe
  rw [lexLeChars_iff_not_lex, String.le_iff_toList_le, ← not_lt]
  exact Iff.rfl

instance : IsTotal (String × JVal) pairLe :=
  ⟨fun p q => by
    rcases le_total p.1 q.1 with h | h
    · exact Or.inl ((pairLe_iff p q).mpr h)
    · exact Or.inr ((pairLe_iff q p).mpr h)⟩

instance : IsTrans (String × JVal) pairLe :=
  ⟨fun p q r hpq hqr =>
    (pairLe_iff p r).mpr
      (le_trans ((pairLe_iff p q).mp hpq) ((pairLe_iff q r).mp hqr))⟩

theorem sortPairs_sorted (l : List (String × JVal)) :
    List.Sorted (· ≤ ·) ((sortPairs l).map Prod.fst) :=
  List.Pairwise.map Prod.fst (fun a b hab => (pairLe_iff a b).mp hab)
    (List.sorted_insertionSort pairLe l)

theorem mget_msets_min (m : List (String × MetaVal)) (v1 v2 : MetaVal) :
    mget (mset (mset m "x-minzoom" v1) "x-maxzoom" v2) "x-minzoom" = v1 := by
  simp [mget, mset_lookup_ne _ _ _ _ (by decide : "x-minzoom" ≠ "x-maxzoom"),
    mset_lookup_self]

theorem mget_msets_max (m : List (String × MetaVal)) (v1 v2 : MetaVal) :
    mget (mset (mset m "x-minzoom" v1) "x-maxzoom" v2) "x-maxzoom" = v2 := by
  simp [mget, mset_lookup_self]

theorem resolveZooms_noquery (a : MBTilesData)
    (hmax : mget a.metadata "x-maxzoom" ≠ .mnone)
    (hmin : mget a.metadata "x-minzoom" ≠ .mnone) :
    resolveZooms a =
      (match pyIntOfMeta (mget a.metadata "x-minzoom"),
             pyIntOfMeta (mget a.metadata "x-maxzoom") with
       | some mn, some mx => (.ok (mn, mx), a, 0)
       | _, _ => (.error .valueError, a, 0)) := by
  have hcond : ¬ (mget a.metadata "x-maxzoom" = MetaVal.mnone ∨
      mget a.metadata "x-minzoom" = MetaVal.mnone) := by
    simp [hmax, hmin]
  unfold resolveZooms
  simp only [hcond, ite_false, if_false]

theorem resolveZooms_empty_query (a : MBTilesData) (ht : a.tiles = [])
    (hcond : mget a.metadata "x-maxzoom" = .mnone ∨
             mget a.metadata "x-minzoom" = .mnone) :
    resolveZooms a =
      (.error .valueError,
       MBTilesData.mk (mset (mset a.metadata "x-minzoom" .mnone) "x-maxzoom" .mnone)
         a.tiles a.mtime a.filesize a.valid, 1) := by
  unfold resolveZooms
  rcases hcond with h | h <;> simp [h, ht, sqlMin, sqlMax, pyIntOfMeta]

theorem resolveZooms_ok_stable (a : MBTilesData) (mn mx : Int)
    (a1 : MBTilesData) (q : Nat)
    (h : resolveZooms a = (.ok (mn, mx), a1, q)) :
    resolveZooms a1 = (.ok (mn, mx), a1, 0) ∧
    a1.tiles = a.tiles ∧ a1.mtime = a.mtime ∧ a1.filesize = a.filesize ∧
    a1.valid = a.valid ∧
    (∀ k, k ≠ "x-minzoom" → k ≠ "x-maxzoom" →
      a1.metadata.lookup k = a.metadata.lookup k) := by
  by_cases hc : mget a.metadata "x-maxzoom" = MetaVal.mnone ∨
      mget a.metadata "x-minzoom" = MetaVal.mnone
  · cases ht : a.tiles with
    | nil =>
      rw [resolveZooms_empty_query a ht hc] at h
      simp at h
    | cons t0 ts =>
      rw [resolveZooms_query a t0 ts ht hc] at h
      simp only [Prod.mk.injEq, Except.ok.injEq] at h
      obtain ⟨⟨hmn, hmx⟩, ha1, hq⟩ := h
      subst hmn
      subst hmx
      subst hq
      subst ha1
      refine ⟨?_, ?_, ?_, ?_, ?_, ?_⟩
      · unfold resolveZooms
        simp [mget_msets_min, mget_msets_max, pyIntOfMeta]
      · exact ht
      · rfl
      · rfl
      · rfl
      · intro k hk1 hk2
        show List.lookup k (mset (mset a.metadata "x-minzoom" _) "x-maxzoom" _) = _
        rw [mset_lookup_ne _ _ _ _ hk2, mset_lookup_ne _ _ _ _ hk1]
  · push_neg at hc
    obtain ⟨hmax, hmin⟩ := hc
    rw [resolveZooms_noquery a hmax hmin] at h
    rcases hpm : pyIntOfMeta (mget a.metadata "x-minzoom") with _ | pm
    · rw [hpm] at h
      simp at h
    · rcases hpx : pyIntOfMeta (mget a.metadata "x-maxzoom") with _ | px
      · rw [hpm, hpx] at h
        simp at h
      · rw [hpm, hpx] at h
        simp only [Prod.mk.injEq, Except.ok.injEq] at h
        obtain ⟨⟨hmn, hmx⟩, ha1, hq⟩ := h
        subst hmn
        subst hmx
        subst hq
        subst ha1
        refine ⟨?_, rfl, rfl, rfl, rfl, fun k _ _ => rfl⟩
        rw [resolveZooms_noquery a hmax hmin, hpm, hpx]

theorem buildResult_ok_lookups (w : World) (name sc host : String)
    (a : MBTilesData) (res : List (String × JVal)) (a1 : MBTilesData) (q : Nat)
    (h : buildResult w name sc host a = (.ok res, a1, q)) :
    ∃ d1 d2 d3 d4 d5,
      a.metadata.lookup "description" = some d1 ∧
      a.metadata.lookup "name" = some d2 ∧
      a.metadata.lookup "format" = some d3 ∧
      a.metadata.lookup "type" = some d4 ∧
      a.metadata.lookup "version" = some d5 := by
  unfold buildResult at h
  rcases h1 : List.lookup "description" a.metadata with _ | d1 <;>
    rcases h2 : List.lookup "name" a.metadata with _ | d2 <;>
    rcases h3 : List.lookup "format" a.metadata with _ | d3 <;>
    rcases h4 : List.lookup "type" a.metadata with _ | d4 <;>
    rcases h5 : List.lookup "version" a.metadata with _ | d5 <;>
    rw [h1, h2, h3, h4, h5] at h <;>
    first
      | exact ⟨_, _, _, _, _, rfl, rfl, rfl, rfl, rfl⟩
      | simp at h

theorem buildResult_eq_ok (w : World) (name sc host : String) (a : MBTilesData)
    (d1 d2 d3 d4 d5 : MetaVal) (mn mx : Int) (a1 : MBTilesData) (q : Nat)
    (h1 : a.metadata.lookup "description" = some d1)
    (h2 : a.metadata.lookup "name" = some d2)
    (h3 : a.metadata.lookup "format" = some d3)
    (h4 : a.metadata.lookup "type" = some d4)
    (h5 : a.metadata.lookup "version" = some d5)
    (hz : resolveZooms a = (.ok (mn, mx), a1, q)) :
    buildResult w name sc host a =
      (match boundsAugment (resultDict w name sc host a d1 d2 d3 d4 d5 mn mx)
          mn mx (mget a1.metadata "bounds") with
       | .ok res => (.ok res, a1, q)
       | .error e => (.error e, a1, q)) := by
  unfold buildResult
  rw [h1, h2, h3, h4, h5, hz]

theorem buildResult_eq_err (w : World) (name sc host : String) (a : MBTilesData)
    (d1 d2 d3 d4 d5 : MetaVal) (e : PyErr) (a1 : MBTilesData) (q : Nat)
    (h1 : a.metadata.lookup "description" = some d1)
    (h2 : a.metadata.lookup "name" = some d2)
    (h3 : a.metadata.lookup "format" = some d3)
    (h4 : a.metadata.lookup "type" = some d4)
    (h5 : a.metadata.lookup "version" = some d5)
    (hz : resolveZooms a = (.error e, a1, q)) :
    buildResult w name sc host a = (.error e, a1, q) := by
  unfold buildResult
  rw [h1, h2, h3, h4, h5, hz]

theorem buildResult_stable (w w' : World) (name sc host : String)
    (a : MBTilesData) (res : List (String × JVal)) (a1 : MBTilesData) (q : Nat)
    (hw : w'.servers = w.servers)
    (h : buildResult w name sc host a = (.ok res, a1, q)) :
    buildResult w' name sc host a1 = (.ok res, a1, 0) ∧ a1.valid = a.valid := by
  have hs : get_servers w' host = get_servers w host := by
    unfold get_servers
    rw [hw]
  obtain ⟨d1, d2, d3, d4, d5, h1, h2, h3, h4, h5⟩ :=
    buildResult_ok_lookups w name sc host a res a1 q h
  rcases hz : resolveZooms a with ⟨zres, a1', q'⟩
  cases zres with
  | error e =>
    rw [buildResult_eq_err w name sc host a d1 d2 d3 d4 d5 e a1' q'
      h1 h2 h3 h4 h5 hz] at h
    simp at h
  | ok p =>
    obtain ⟨mn, mx⟩ := p
    obtain ⟨hz1, htl, hmt, hfs, hvd, hlk⟩ :=
      resolveZooms_ok_stable a mn mx a1' q' hz
    rw [buildResult_eq_ok w name sc host a d1 d2 d3 d4 d5 mn mx a1' q'
      h1 h2 h3 h4 h5 hz] at h
    rcases hb : boundsAugment (resultDict w name sc host a d1 d2 d3 d4 d5 mn mx)
        mn mx (mget a1'.metadata "bounds") with e | res'
    · rw [hb] at h
      simp at h
    · rw [hb] at h
      simp only [Prod.mk.injEq, Except.ok.injEq] at h
      obtain ⟨hres, ha1, hq⟩ := h
      subst hres
      subst ha1
      subst hq
      refine ⟨?_, hvd⟩
      have e1 : List.lookup "description" a1'.metadata = some d1 := by
        rw [hlk _ (by decide) (by decide)]
        exact h1
      have e2 : List.lookup "name" a1'.metadata = some d2 := by
        rw [hlk _ (by decide) (by decide)]
        exact h2
      have e3 : List.lookup "format" a1'.metadata = some d3 := by
        rw [hlk _ (by decide) (by decide)]
        exact h3
      have e4 : List.lookup "type" a1'.metadata = some d4 := by
        rw [hlk _ (by decide) (by decide)]
        exact h4
      have e5 : List.lookup "version" a1'.metadata = some d5 := by
        rw [hlk _ (by decide) (by decide)]
        exact h5
      have hrd : resultDict w' name sc host a1' d1 d2 d3 d4 d5 mn mx =
          resultDict w name sc host a d1 d2 d3 d4 d5 mn mx := by
        simp [resultDict, hs, hfs]
      rw [buildResult_eq_ok w' name sc host a1' d1 d2 d3 d4 d5 mn mx a1' 0
        e1 e2 e3 e4 e5 hz1, hrd, hb]

/-- **C8.** (i) The keys of every successfully produced TileJSON document
are in lexicographically sorted order. (ii) The output is stable: a
successful run leaves the archive in a state (the possibly-written-back
metadata) from which a second, identical request — against the same
configuration — produces the identical body. -/
theorem tilejson_sorted_and_stable (w w' : World) (name : String) (r : TJReq) :
    (∀ d, tilejsonDoc w name r = some d →
        List.Sorted (· ≤ ·) (d.map Prod.fst)) ∧
    (∀ resp a1 q o,
        tilejsonTry w name r = ⟨.ok resp, some a1, q, o⟩ →
        locateFile w' name = some a1 →
        w'.servers = w.servers →
        (tilejsonTry w' name r).result = .ok resp) := by
  constructor
  · intro d hd
    unfold tilejsonDoc at hd
    rcases hl : locateFile w name with _ | a0
    · rw [hl] at hd
      simp at hd
    · rw [hl] at hd
      by_cases hv : a0.valid = true
      · simp only [hv, ite_true] at hd
        rcases hbr : buildResult w name r.scheme r.host a0 with ⟨bres, a1', q'⟩
        rw [hbr] at hd
        cases bres with
        | error e => simp at hd
        | ok resl =>
          simp only [Option.some.injEq] at hd
          subst hd
          exact sortPairs_sorted resl
      · simp [hv] at hd
  · intro resp a1 q o htry hloc' hserv
    unfold tilejsonTry at htry
    rcases hl : locateFile w name with _ | a0
    · rw [hl] at htry
      simp at htry
    · rw [hl] at htry
      by_cases hv : a0.valid = true
      · simp only [hv, ite_true] at htry
        rcases hbr : buildResult w name r.scheme r.host a0 with ⟨bres, a1', q'⟩
        rw [hbr] at htry
        cases bres with
        | error e => simp at htry
        | ok resl =>
          simp only [TJRun.mk.injEq, Option.some.injEq] at htry
          obtain ⟨hres, ha, hq, ho⟩ := htry
          subst ha
          obtain ⟨hstable, hvalid⟩ :=
            buildResult_stable w w' name r.scheme r.host a0 resl a1' q' hserv hbr
          unfold tilejsonTry
          rw [hloc']
          have hv1 : a1'.valid = true := by
            rw [hvalid]
            exact hv
          simp only [hv1, ite_true]
          rw [hstable]
          exact hres
      · simp [hv] at htry

/-- Witness for C8: one run on the zoom-less fixture leaves the archive
with written-back zoom metadata; a second run against that archive state
(same configuration) produces the identical result. -/
theorem tilejson_sorted_and_stable_witness :
    (tilejsonTry sampleWorld "nozoom" ⟨"http", "h", none⟩).archive =
      some archNoZoomResolved ∧
    locateFile sampleWorld2 "nozoom" = some archNoZoomResolved ∧
    (tilejsonTry sampleWorld2 "nozoom" ⟨"http", "h", none⟩).result =
      (tilejsonTry sampleWorld "nozoom" ⟨"http", "h", none⟩).result := by
  refine ⟨rfl, rfl, ?_⟩
  have h := (tilejson_sorted_and_stable sampleWorld sampleWorld2 "nozoom"
    ⟨"http", "h", none⟩).2 _ _ _ _ rfl rfl rfl
  rw [h]
  rfl
